import Mathlib

/-!
Verification of the request-orchestration core of the entsoe client library
(`misc.py`, `entsoerawclient.py`, `entsoepandasclient.py`).

The embedding models:
* timestamps (`pd.Timestamp` wall-clock values) as a record of calendar
  fields with a lexicographic linear order;
* the time-range chunkers `year_blocks` / `day_blocks` / `pairwise`,
  including the `dateutil.rrule` occurrence generation they rely on
  (YEARLY / DAILY recurrences anchored at `dtstart`, invalid dates skipped);
* the error classification performed inside `EntsoeRawClient.base_request`
  (status check, extracted error text, marker-substring matching and the
  token extraction used for the pagination message);
* the `retry` decorator as an instrumented loop counting calls and sleeps;
* the `paginated` decorator as a fuel-indexed recursion (`none` = the
  Python recursion has not returned within the given fuel);
* the query-parameter dictionary update done by `base_request`;
* `_datetime_to_str` together with a timezone-conversion model;
* the unavailability query methods of the raw and pandas clients.
-/

/-- Wall-clock timestamp: year, month (< 13), day (< 32), hour (< 24),
minute (< 60).  Field bounds are carried in the type so that the
mixed-radix key below is injective. -/
@[ext]
structure TS where
  y : Nat
  mo : Fin 13
  d : Fin 32
  h : Fin 24
  mi : Fin 60
deriving DecidableEq, Repr

/-- Mixed-radix linearization of a timestamp; induces the lexicographic
(chronological) order on wall-clock fields. -/
def TS.key (t : TS) : Nat :=
  (((t.y * 13 + t.mo.val) * 32 + t.d.val) * 24 + t.h.val) * 60 + t.mi.val

theorem TS.key_inj {a b : TS} (hk : a.key = b.key) : a = b := by
  obtain ⟨ay, ⟨am, ham⟩, ⟨ad, had⟩, ⟨ah, hah⟩, ⟨ami, hami⟩⟩ := a
  obtain ⟨by', ⟨bm, hbm⟩, ⟨bd, hbd⟩, ⟨bh, hbh⟩, ⟨bmi, hbmi⟩⟩ := b
  simp only [TS.key] at hk
  simp only [TS.mk.injEq, Fin.mk.injEq]
  omega

instance : LinearOrder TS where
  le a b := a.key ≤ b.key
  le_refl a := Nat.le_refl _
  le_trans a b c := Nat.le_trans
  le_antisymm a b h1 h2 := TS.key_inj (Nat.le_antisymm h1 h2)
  le_total a b := Nat.le_total _ _
  decidableLE a b := Nat.decLe _ _
  decidableEq := inferInstance

theorem TS.le_iff_key {a b : TS} : a ≤ b ↔ a.key ≤ b.key := Iff.rfl

theorem TS.lt_iff_key {a b : TS} : a < b ↔ a.key < b.key := by
  rw [lt_iff_le_not_le, TS.le_iff_key, TS.le_iff_key]
  omega

/-- Convenience constructor for concrete timestamps (arguments in range). -/
def mkTS (y mo d h mi : Nat) : TS :=
  ⟨y, ⟨mo % 13, by omega⟩, ⟨d % 32, by omega⟩, ⟨h % 24, by omega⟩, ⟨mi % 60, by omega⟩⟩

/-- Gregorian leap-year test (as used by `datetime` / `dateutil`). -/
def isLeap (y : Nat) : Bool :=
  (y % 4 == 0 && y % 100 != 0) || y % 400 == 0

/-- Number of days of month `m` in year `y` (Gregorian calendar). -/
def daysInMonth (y m : Nat) : Nat :=
  if m = 2 then (if isLeap y then 29 else 28)
  else if m = 4 ∨ m = 6 ∨ m = 9 ∨ m = 11 then 30
  else 31

theorem daysInMonth_le (y m : Nat) : daysInMonth y m ≤ 31 := by
  unfold daysInMonth; split
  · split <;> omega
  · split <;> omega

theorem daysInMonth_pos (y m : Nat) : 1 ≤ daysInMonth y m := by
  unfold daysInMonth; split
  · split <;> omega
  · split <;> omega

/-- A timestamp whose month/day combination denotes a real calendar date. -/
def validDate (t : TS) : Bool :=
  decide (1 ≤ t.mo.val ∧ t.mo.val ≤ 12 ∧ 1 ≤ t.d.val ∧ t.d.val ≤ daysInMonth t.y t.mo.val)

/-- The `k`-th YEARLY recurrence candidate anchored at `s`: same month, day
and time-of-day fields, year advanced by `k` (`dateutil.rrule` with
`rrule.YEARLY` and `dtstart = s` produces exactly the valid such dates). -/
def anniv (s : TS) (k : Nat) : TS :=
  ⟨s.y + k, s.mo, s.d, s.h, s.mi⟩

/-- The occurrence list of `rrule(rrule.YEARLY, dtstart=s, until=e)`:
anniversaries of `s` for each year from `s.y` on, skipping invalid dates
(Feb 29 in non-leap years), stopping once the occurrence exceeds `e`. -/
def yearlyOcc (s e : TS) : List TS :=
  (List.range (e.y + 1 - s.y)).filterMap fun k =>
    if validDate (anniv s k) = true ∧ anniv s k ≤ e then some (anniv s k) else none

/-- Advance a timestamp by one calendar day, keeping the time of day. -/
def nextDayTS (t : TS) : TS :=
  if h : t.d.val < daysInMonth t.y t.mo.val then
    ⟨t.y, t.mo, ⟨t.d.val + 1, by have := daysInMonth_le t.y t.mo.val; omega⟩, t.h, t.mi⟩
  else if h2 : t.mo.val < 12 then
    ⟨t.y, ⟨t.mo.val + 1, by omega⟩, ⟨1, by omega⟩, t.h, t.mi⟩
  else
    ⟨t.y + 1, ⟨1, by omega⟩, ⟨1, by omega⟩, t.h, t.mi⟩

/-- Step backwards one calendar day, keeping the time of day. -/
def prevDayTS (t : TS) : TS :=
  if h : 1 < t.d.val then
    ⟨t.y, t.mo, ⟨t.d.val - 1, by omega⟩, t.h, t.mi⟩
  else if h2 : 1 < t.mo.val then
    ⟨t.y, ⟨t.mo.val - 1, by omega⟩,
      ⟨daysInMonth t.y (t.mo.val - 1), by have := daysInMonth_le t.y (t.mo.val - 1); omega⟩,
      t.h, t.mi⟩
  else
    ⟨t.y - 1, ⟨12, by omega⟩, ⟨31, by omega⟩, t.h, t.mi⟩

/-- Iterated day stepping from a starting timestamp while the occurrence
stays `≤ e`; the fuel strictly dominates the number of days between the
endpoints, so exhaustion never cuts the real occurrence list short. -/
def dailyOccGo (e : TS) : Nat → TS → List TS
  | 0, _ => []
  | fuel + 1, c => if c ≤ e then c :: dailyOccGo e fuel (nextDayTS c) else []

/-- The occurrence list of `rrule(rrule.DAILY, dtstart=s, until=e)`:
successive days starting at `s`, each at `s`'s time of day, while `≤ e`. -/
def dailyOcc (s e : TS) : List TS :=
  dailyOccGo e (366 * (e.y + 2 - s.y)) s

/-- `misc.pairwise`: `[A, B, C, D] -> [(A, B), (B, C), (C, D)]`
(`tee` + `next` + `zip` in the source). -/
def pairwise {α : Type} (l : List α) : List (α × α) :=
  l.zip l.tail

/-- The sorted deduplicated boundary list `sorted(set(res))` shared by
`year_blocks` and `day_blocks` (`res` is the occurrence list with the
requested `end` appended). -/
def sortedBounds (occ : List TS) (e : TS) : List TS :=
  List.insertionSort (· ≤ ·) ((occ ++ [e]).dedup)

/-- `misc.year_blocks`: pairs of start and end with at most a year in
between, built from YEARLY rrule occurrences anchored at `start`, with
`end` appended, deduplicated, sorted, and consecutive pairs emitted. -/
def year_blocks (s e : TS) : List (TS × TS) :=
  pairwise (sortedBounds (yearlyOcc s e) e)

/-- `misc.day_blocks`: same construction with DAILY rrule occurrences. -/
def day_blocks (s e : TS) : List (TS × TS) :=
  pairwise (sortedBounds (dailyOcc s e) e)

/-- Chunker following the specification text for YEAR granularity:
"compute the ordered sequence of calendar boundaries (start of each year)
falling within `[start, end]`, append `end` itself, deduplicate, sort
ascending, then emit each adjacent pair as a chunk."  (A second definition
written from the spec's words, to be compared with `year_blocks`.) -/
def calendarYearStarts (s e : TS) : List TS :=
  (List.range (e.y + 1 - s.y)).filterMap fun k =>
    let c : TS := ⟨s.y + k, ⟨1, by omega⟩, ⟨1, by omega⟩, ⟨0, by omega⟩, ⟨0, by omega⟩⟩
    if s ≤ c ∧ c ≤ e then some c else none

/-- Spec-worded YEAR chunker (see `calendarYearStarts`). -/
def chunkSpecYear (s e : TS) : List (TS × TS) :=
  pairwise (sortedBounds (calendarYearStarts s e) e)

/-! ### Error classification in `EntsoeRawClient.base_request` -/

/-- Does the needle occur at the head of the haystack? -/
def startsWithChars : List Char → List Char → Bool
  | [], _ => true
  | _ :: _, [] => false
  | a :: as, b :: bs => (a == b) && startsWithChars as bs

/-- Python's substring test `needle in haystack` on character lists. -/
def containsSub (needle : List Char) : List Char → Bool
  | [] => needle.isEmpty
  | c :: rest => startsWithChars needle (c :: rest) || containsSub needle rest

/-- Python's `needle in haystack` for strings (exact, case-sensitive). -/
def containsSubstr (haystack needle : String) : Bool :=
  containsSub needle.data haystack.data

/-- Python's `s.split(' ')`: split at every single space character,
keeping empty fields. -/
def splitSpaceGo : List Char → List Char → List String
  | [], acc => [String.mk acc.reverse]
  | c :: rest, acc =>
    if c == ' ' then String.mk acc.reverse :: splitSpaceGo rest []
    else splitSpaceGo rest (c :: acc)

/-- `error_text.split(' ')` from the source. -/
def pySplitSpace (s : String) : List String :=
  splitSpaceGo s.data []

/-- Python's `lst[-2]` (second-to-last element); `none` models the
`IndexError` raised when the list is shorter than two elements. -/
def pyTokenNeg2 (l : List String) : Option String :=
  if h : 2 ≤ l.length then some (l.get ⟨l.length - 2, by omega⟩) else none

/-- The marker string the source actually compares against.  In the Python
source the literal is written with a backslash line continuation *inside*
the string, so the indentation of the continuation line (22 spaces) becomes
part of the literal: `"amount of requested data "` + 22 spaces +
`"exceeds allowed limit"`. -/
def codePaginationMarker : String :=
  "amount of requested data                       exceeds allowed limit"

/-- The marker phrase named by the specification. -/
def specPaginationMarker : String :=
  "amount of requested data exceeds allowed limit"

/-- The no-data marker (identical in code and spec). -/
def noDataMarker : String :=
  "No matching data found"

/-- Outcome of `base_request` after `raise_for_status`: the returned
response, or the exception raised (`NoMatchingDataError`,
`PaginationError` carrying the extracted token, the re-raised
`requests.HTTPError`, or an `IndexError` from the token extraction). -/
inductive RawOutcome where
  | success (status : Nat)
  | noMatchingData
  | paginationError (requested : String)
  | indexError
  | httpError (status : Nat)
deriving DecidableEq, Repr

/-- The classification logic of `EntsoeRawClient.base_request` (lines
76-94): `raise_for_status` raises for status >= 400; the body's `<text>`
elements are extracted by BeautifulSoup (modelled here as the `texts`
argument, `soup.find('text').text` being the head); the first text is
scanned for the two marker substrings; any unmatched error re-raises the
`HTTPError`. -/
def base_request_classify (status : Nat) (texts : List String) : RawOutcome :=
  if status < 400 then .success status
  else
    match texts with
    | [] => .httpError status
    | errorText :: _ =>
      if containsSubstr errorText noDataMarker then .noMatchingData
      else if containsSubstr errorText codePaginationMarker then
        match pyTokenNeg2 (pySplitSpace errorText) with
        | some tok => .paginationError tok
        | none => .indexError
      else .httpError status

/-- A realistic ENTSO-E error message: the spec's marker phrase with a
single space between every word, with the requested count as the
second-to-last whitespace token. -/
def limitErrorText : String :=
  "The amount of requested data exceeds allowed limit of 200 elements"

/-! ### The `retry` decorator (`misc.py` lines 79-98) -/

/-- Transient transport errors caught by `retry`
(`requests.ConnectionError`, `socket.gaierror`). -/
inductive ConnErr where
  | connectionError
  | gaierror
deriving DecidableEq, Repr

/-- Result of a `retry`-wrapped call, instrumented with the number of
invocations of the wrapped function and the number of `sleep` calls.
`result = .error none` models `raise error` with `error` still `None`
(the `retry_count == 0` case). -/
structure RetryTrace (α : Type) where
  result : Except (Option ConnErr) α
  calls : Nat
  sleeps : Nat
deriving Repr

/-- The `for _ in range(retry_count)` loop of `retry_wrapper`: each failed
attempt records the error, sleeps once, and continues; a successful
attempt returns immediately; an exhausted loop re-raises the last error. -/
def retryGo {α : Type} (f : Nat → Except ConnErr α) :
    Nat → Nat → Nat → Option ConnErr → RetryTrace α
  | 0, calls, sleeps, err => ⟨.error err, calls, sleeps⟩
  | remaining + 1, calls, sleeps, _err =>
    match f calls with
    | .ok a => ⟨.ok a, calls + 1, sleeps⟩
    | .error e => retryGo f remaining (calls + 1) (sleeps + 1) (some e)

/-- `misc.retry` applied to an operation `f` (indexed by attempt number)
with the client's `retry_count`. -/
def retry_wrapper {α : Type} (retry_count : Nat) (f : Nat → Except ConnErr α) :
    RetryTrace α :=
  retryGo f retry_count 0 0 none

/-- An operation that raises a transient transport error on every attempt. -/
def alwaysFailOp : Nat → Except ConnErr Unit :=
  fun _ => .error .connectionError

/-! ### The `paginated` decorator (`misc.py` lines 101-118) -/

/-- Exceptions that can escape the wrapped query function. -/
inductive QErr where
  | pagination
  | noMatchingData
  | http (status : Nat)
  | valueError
deriving DecidableEq, Repr

/-- `misc.paginated`, fuel-indexed.  The wrapped call is tried; a
`PaginationError` splits the period at `pivotF start end` and recurses on
both halves, concatenating the two frames; every other exception
propagates.  `none` means the Python recursion has not returned within
`fuel` nested calls — `∀ fuel, ... = none` states that it never returns. -/
def paginatedFuel {τ α : Type} (pivotF : τ → τ → τ)
    (fetch : τ → τ → Except QErr (List α)) :
    Nat → τ → τ → Option (Except QErr (List α))
  | 0, _, _ => none
  | fuel + 1, s, e =>
    match fetch s e with
    | .error .pagination =>
      match paginatedFuel pivotF fetch fuel s (pivotF s e) with
      | none => none
      | some (.error err) => some (.error err)
      | some (.ok d1) =>
        match paginatedFuel pivotF fetch fuel (pivotF s e) e with
        | none => none
        | some (.error err) => some (.error err)
        | some (.ok d2) => some (.ok (d1 ++ d2))
    | other => some other

/-- `pivot = start + (end - start) / 2` on linearized (nanosecond-style)
timestamps, as computed by the source on `pd.Timestamp` values. -/
def natPivot (s e : Nat) : Nat :=
  s + (e - s) / 2

/-- A fetch whose classified outcome is pagination-exceeded on every
sub-range. -/
def alwaysPaginationFetch : Nat → Nat → Except QErr (List Nat) :=
  fun _ _ => .error .pagination

/-- A fetch whose classified outcome is `NoData` on some range: the
wrapped query raises `NoMatchingDataError`. -/
def noDataFetch : Nat → Nat → Except QErr (List Nat) :=
  fun _ _ => .error .noMatchingData

/-! ### The params dictionary in `base_request` (lines 64-75) -/

/-- Python `dict` update of a single key: replace the value in place when
the key exists, append the pair otherwise. -/
def dictSet (d : List (String × String)) (k v : String) :
    List (String × String) :=
  if (d.lookup k).isSome then
    d.map fun kv => if kv.1 = k then (k, v) else kv
  else d ++ [(k, v)]

/-- The caller's `params` dictionary after `params.update(base_params)`
in `base_request`: `update` mutates the dictionary object in place, so
this is what the caller's reference sees once the request was issued. -/
def base_request_params (params : List (String × String))
    (apiKey startStr endStr : String) : List (String × String) :=
  dictSet (dictSet (dictSet params "securityToken" apiKey)
    "periodStart" startStr) "periodEnd" endStr

/-! ### `_datetime_to_str` (lines 103-123) -/

/-- A possibly timezone-aware timestamp: wall-clock fields plus an
optional fixed offset from UTC in minutes (`none` = naive,
`some 0` = `pytz.UTC`). -/
structure ZonedTS where
  t : TS
  tz : Option Int
deriving DecidableEq, Repr

/-- Shift a timestamp by a whole number of days. -/
def shiftDays (t : TS) (k : Int) : TS :=
  if k ≥ 0 then (Nat.iterate nextDayTS k.toNat) t
  else (Nat.iterate prevDayTS (-k).toNat) t

/-- Shift a wall-clock timestamp by `o` minutes (calendar-correct: hour
and day boundaries roll over). -/
def addMinutes (t : TS) (o : Int) : TS :=
  let m : Int := (t.h.val * 60 + t.mi.val : Nat) + o
  let rem : Nat := (m.emod 1440).toNat
  let date := shiftDays t (m.ediv 1440)
  ⟨date.y, date.mo, date.d,
    ⟨rem / 60, by
      have h1 : (0 : Int) ≤ m.emod 1440 := Int.emod_nonneg m (by omega)
      have h2 : m.emod 1440 < 1440 := Int.emod_lt_of_pos m (by omega)
      omega⟩,
    ⟨rem % 60, by omega⟩⟩

/-- `Timestamp.tz_convert("UTC")`: rebase the wall clock by the zone's
offset and tag the result as UTC.  (Only ever called on aware values.) -/
def tzConvertUTC (z : ZonedTS) : ZonedTS :=
  match z.tz with
  | none => z
  | some o => ⟨addMinutes z.t (-o), some 0⟩

/-- Two-digit zero-padded decimal. -/
def pad2 (n : Nat) : String :=
  if n < 10 then "0" ++ toString n else toString n

/-- Four-digit zero-padded decimal. -/
def pad4 (n : Nat) : String :=
  if n < 10 then "000" ++ toString n
  else if n < 100 then "00" ++ toString n
  else if n < 1000 then "0" ++ toString n
  else toString n

/-- `strftime('%Y%m%d%H00')` on wall-clock fields. -/
def fmtYYYYMMDDHH00 (t : TS) : String :=
  pad4 t.y ++ pad2 t.mo.val ++ pad2 t.d.val ++ pad2 t.h.val ++ "00"

/-- `EntsoeRawClient._datetime_to_str`: convert to UTC when the value is
timezone-aware with a zone other than `pytz.UTC`, then format. -/
def datetime_to_str (dtm : ZonedTS) : String :=
  let dtm' := if dtm.tz ≠ none ∧ dtm.tz ≠ some 0 then tzConvertUTC dtm else dtm
  fmtYYYYMMDDHH00 dtm'.t

/-- Serializer written from the specification's words: "the string
YYYYMMDDHH00 ... of the instant normalized to UTC: an instant carrying a
non-UTC zone is converted to UTC before formatting, and an instant
carrying no zone is formatted as if it were UTC."  (A second definition
from the spec, to be compared with `datetime_to_str`.) -/
def spec_serialize (dtm : ZonedTS) : String :=
  let normalized : TS :=
    match dtm.tz with
    | none => dtm.t
    | some o => if o = 0 then dtm.t else (tzConvertUTC dtm).t
  fmtYYYYMMDDHH00 normalized

/-! ### Unavailability queries (raw client lines 305-348, pandas client
lines 174-217) -/

/-- `EntsoeRawClient.query_unavailability_of_generation_units`: build the
params dictionary (document type from the external mapping, bidding-zone
domain, plus `docStatus` when given) and issue it through `base_request`
(abstracted as `transport`); the response's `content` is returned. -/
def query_unavailability_raw {ρ : Type}
    (transport : List (String × String) → ZonedTS → ZonedTS → ρ)
    (doctype domain : String) (s e : ZonedTS) (docstatus : Option String) : ρ :=
  let params := [("documentType", doctype), ("biddingZone_domain", domain)]
  let params :=
    match docstatus with
    | some ds => params ++ [("docStatus", ds)]
    | none => params
  transport params s e

/-- `EntsoeRawClient.query_withdrawn_unavailability_of_generation_units`:
delegates to the unavailability query with `docstatus='A13'`. -/
def query_withdrawn_unavailability_raw {ρ : Type}
    (transport : List (String × String) → ZonedTS → ZonedTS → ρ)
    (doctype domain : String) (s e : ZonedTS) : ρ :=
  query_unavailability_raw transport doctype domain s e (some "A13")

/-- Sequentially evaluate the per-block frames of `year_limited`'s list
comprehension; the first exception aborts, fuel exhaustion is `none`. -/
def runBlocks {α : Type} (g : TS → TS → Option (Except QErr (List α))) :
    List (TS × TS) → Option (Except QErr (List (List α)))
  | [] => some (.ok [])
  | (a, b) :: rest =>
    match g a b with
    | none => none
    | some (.error err) => some (.error err)
    | some (.ok d) =>
      match runBlocks g rest with
      | none => none
      | some (.error err) => some (.error err)
      | some (.ok ds) => some (.ok (d :: ds))

/-- `misc.year_limited`: split `[s, e]` into year blocks, run the wrapped
function per block, and concatenate (`pd.concat` raises `ValueError` on an
empty frame list). -/
def year_limited_run {α : Type} (g : TS → TS → Option (Except QErr (List α)))
    (s e : TS) : Option (Except QErr (List α)) :=
  match runBlocks g (year_blocks s e) with
  | none => none
  | some (.error err) => some (.error err)
  | some (.ok frames) =>
    if frames.isEmpty then some (.error .valueError)
    else some (.ok frames.flatten)

/-- `EntsoePandasClient.query_unavailability_of_generation_units`: the
`@year_limited @paginated` pipeline around the per-range fetch-and-parse
(`fetch docstatus`), for a given bisection pivot and recursion fuel. -/
def query_unavailability_pandas {α : Type} (pivotF : TS → TS → TS)
    (fetch : Option String → TS → TS → Except QErr (List α)) (fuel : Nat)
    (docstatus : Option String) (s e : TS) : Option (Except QErr (List α)) :=
  year_limited_run (fun a b => paginatedFuel pivotF (fetch docstatus) fuel a b) s e

/-- `EntsoePandasClient.query_withdrawn_unavailability_of_generation_units`:
delegates to the pandas unavailability query with `docstatus='A13'`. -/
def query_withdrawn_unavailability_pandas {α : Type} (pivotF : TS → TS → TS)
    (fetch : Option String → TS → TS → Except QErr (List α)) (fuel : Nat)
    (s e : TS) : Option (Except QErr (List α)) :=
  query_unavailability_pandas pivotF fetch fuel (some "A13") s e

/-! ### Generic facts about `pairwise` and sorted boundary lists -/

theorem pairwise_cons_cons {α : Type} (a b : α) (l : List α) :
    pairwise (a :: b :: l) = (a, b) :: pairwise (b :: l) := rfl

theorem pairwise_chain {α : Type} :
    ∀ l : List α, (pairwise l).Chain' (fun p q => p.2 = q.1)
  | [] => by simp [pairwise]
  | [_] => by simp [pairwise]
  | a :: b :: l => by
    rw [pairwise_cons_cons]
    rw [List.chain'_cons']
    refine ⟨?_, pairwise_chain (b :: l)⟩
    intro q hq
    cases l with
    | nil => simp [pairwise] at hq
    | cons c l' =>
      rw [pairwise_cons_cons] at hq
      simp only [List.head?_cons, Option.mem_def, Option.some.injEq] at hq
      subst hq; rfl

theorem pairwise_fst_lt {α : Type} [LinearOrder α] :
    ∀ l : List α, l.Chain' (· < ·) → ∀ p ∈ pairwise l, p.1 < p.2
  | [], _, p, hp => by simp [pairwise] at hp
  | [_], _, p, hp => by simp [pairwise] at hp
  | a :: b :: l, hc, p, hp => by
    rw [pairwise_cons_cons, List.mem_cons] at hp
    rcases hp with rfl | hp
    · exact (List.chain'_cons.mp hc).1
    · exact pairwise_fst_lt (b :: l) (List.chain'_cons.mp hc).2 p hp

theorem pairwise_getLast_snd {α : Type} :
    ∀ (a b : α) (l : List α),
      ∃ p, (pairwise (a :: b :: l)).getLast? = some p ∧
        some p.2 = (b :: l).getLast?
  | a, b, [] => ⟨(a, b), rfl, rfl⟩
  | a, b, c :: l => by
    obtain ⟨p, hp, hsnd⟩ := pairwise_getLast_snd b c l
    refine ⟨p, ?_, ?_⟩
    · rw [pairwise_cons_cons, pairwise_cons_cons]
      rw [pairwise_cons_cons] at hp
      rw [List.getLast?_cons_cons]
      exact hp
    · rw [List.getLast?_cons_cons]
      exact hsnd

theorem mem_of_mem_pairwise {α : Type} {l : List α} {p : α × α}
    (hp : p ∈ pairwise l) : p.1 ∈ l ∧ p.2 ∈ l := by
  obtain ⟨p1, p2⟩ := p
  have h := List.of_mem_zip hp
  exact ⟨h.1, List.mem_of_mem_tail h.2⟩

theorem pairwise_cover {α : Type} [LinearOrder α] :
    ∀ (rest : List α) (a t : α), (a :: rest).Chain' (· ≤ ·) →
      a ≤ t → (∀ m, (a :: rest).getLast? = some m → t ≤ m) → rest ≠ [] →
      ∃ p ∈ pairwise (a :: rest), p.1 ≤ t ∧ t ≤ p.2
  | [], _, _, _, _, _, hne => absurd rfl hne
  | b :: rest', a, t, hc, hat, htl, _ => by
    by_cases htb : t ≤ b
    · exact ⟨(a, b), by rw [pairwise_cons_cons]; exact List.mem_cons_self _ _,
        hat, htb⟩
    · cases rest' with
      | nil => exact absurd (htl b rfl) htb
      | cons c rest'' =>
        obtain ⟨p, hpmem, hpt⟩ :=
          pairwise_cover (c :: rest'') b t (List.chain'_cons.mp hc).2
            (le_of_not_le htb)
            (fun m hm => htl m (by rw [List.getLast?_cons_cons]; exact hm))
            (List.cons_ne_nil _ _)
        exact ⟨p, by rw [pairwise_cons_cons]; exact List.mem_cons_of_mem _ hpmem, hpt⟩

theorem sorted_head_min {α : Type} [LinearOrder α] {l : List α}
    (hs : l.Sorted (· ≤ ·)) {a : α} (hha : l.head? = some a) :
    ∀ x ∈ l, a ≤ x := by
  cases l with
  | nil => simp at hha
  | cons h t =>
    simp only [List.head?_cons, Option.some.injEq] at hha
    subst hha
    intro x hx
    rcases List.mem_cons.mp hx with rfl | hx
    · exact le_refl x
    · exact List.rel_of_sorted_cons hs x hx

theorem sorted_getLast_max {α : Type} [LinearOrder α] :
    ∀ {l : List α}, l.Sorted (· ≤ ·) → ∀ {m}, l.getLast? = some m →
      ∀ x ∈ l, x ≤ m
  | [], _, m, hm => by simp at hm
  | [a], _, m, hm => by
    simp only [List.getLast?_singleton, Option.some.injEq] at hm
    subst hm
    intro x hx
    rcases List.mem_singleton.mp hx with rfl
    exact le_refl x
  | a :: b :: t, hs, m, hm => by
    rw [List.getLast?_cons_cons] at hm
    intro x hx
    rcases List.mem_cons.mp hx with rfl | hx
    · exact List.rel_of_sorted_cons hs m (List.mem_of_getLast?_eq_some hm)
    · exact sorted_getLast_max hs.of_cons hm x hx

theorem sortedBounds_sorted (occ : List TS) (e : TS) :
    (sortedBounds occ e).Sorted (· ≤ ·) :=
  List.sorted_insertionSort _ _

theorem sortedBounds_nodup (occ : List TS) (e : TS) :
    (sortedBounds occ e).Nodup :=
  ((List.perm_insertionSort _ _).nodup_iff).mpr (List.nodup_dedup _)

theorem mem_sortedBounds {x : TS} {occ : List TS} {e : TS} :
    x ∈ sortedBounds occ e ↔ x ∈ occ ∨ x = e := by
  rw [sortedBounds, (List.perm_insertionSort _ _).mem_iff, List.mem_dedup,
    List.mem_append, List.mem_singleton]

/-! ### Facts about the timestamp order and the rrule occurrence lists -/

theorem TS.y_le_of_le {a b : TS} (h : a ≤ b) : a.y ≤ b.y := by
  rw [TS.le_iff_key] at h
  unfold TS.key at h
  have := a.mo.isLt; have := a.d.isLt; have := a.h.isLt; have := a.mi.isLt
  have := b.mo.isLt; have := b.d.isLt; have := b.h.isLt; have := b.mi.isLt
  omega

theorem anniv_key (s : TS) (k : Nat) :
    (anniv s k).key = s.key + k * 599040 := by
  simp only [anniv, TS.key]
  ring

theorem le_anniv (s : TS) (k : Nat) : s ≤ anniv s k := by
  rw [TS.le_iff_key, anniv_key]
  omega

theorem anniv_zero (s : TS) : anniv s 0 = s := rfl

theorem mem_yearlyOcc {s e x : TS} :
    x ∈ yearlyOcc s e ↔
      ∃ k, k < e.y + 1 - s.y ∧ validDate (anniv s k) = true ∧
        anniv s k ≤ e ∧ x = anniv s k := by
  unfold yearlyOcc
  rw [List.mem_filterMap]
  constructor
  · rintro ⟨k, hk, hx⟩
    rw [List.mem_range] at hk
    split at hx
    · rename_i hcond
      exact ⟨k, hk, hcond.1, hcond.2, (Option.some_inj.mp hx).symm⟩
    · simp at hx
  · rintro ⟨k, hk, hvd, hle, rfl⟩
    exact ⟨k, List.mem_range.mpr hk, by rw [if_pos ⟨hvd, hle⟩]⟩

theorem yearlyOcc_self_mem {s e : TS} (hv : validDate s = true) (hse : s ≤ e) :
    s ∈ yearlyOcc s e := by
  rw [mem_yearlyOcc]
  refine ⟨0, ?_, ?_, ?_, ?_⟩
  · have := TS.y_le_of_le hse
    omega
  · rw [anniv_zero]; exact hv
  · rw [anniv_zero]; exact hse
  · rw [anniv_zero]

theorem yearlyOcc_bounds {s e x : TS} (hx : x ∈ yearlyOcc s e) :
    s ≤ x ∧ x ≤ e := by
  rw [mem_yearlyOcc] at hx
  obtain ⟨k, _, _, hle, rfl⟩ := hx
  exact ⟨le_anniv s k, hle⟩

theorem nextDayTS_time (t : TS) :
    (nextDayTS t).h = t.h ∧ (nextDayTS t).mi = t.mi := by
  unfold nextDayTS
  split
  · exact ⟨rfl, rfl⟩
  · split
    · exact ⟨rfl, rfl⟩
    · exact ⟨rfl, rfl⟩

theorem lt_nextDayTS (t : TS) : t < nextDayTS t := by
  rw [TS.lt_iff_key]
  have hmo := t.mo.isLt; have hd := t.d.isLt
  have hh := t.h.isLt; have hmi := t.mi.isLt
  unfold nextDayTS
  split
  · simp only [TS.key]; omega
  · split
    · simp only [TS.key]; omega
    · simp only [TS.key]; omega

theorem dailyOccGo_mem {e : TS} :
    ∀ (fuel : Nat) (c x : TS), x ∈ dailyOccGo e fuel c →
      x.h = c.h ∧ x.mi = c.mi ∧ c ≤ x ∧ x ≤ e
  | 0, c, x, hx => by simp [dailyOccGo] at hx
  | fuel + 1, c, x, hx => by
    unfold dailyOccGo at hx
    split at hx
    · rename_i hce
      rcases List.mem_cons.mp hx with rfl | hx
      · exact ⟨rfl, rfl, le_refl x, hce⟩
      · obtain ⟨h1, h2, h3, h4⟩ := dailyOccGo_mem fuel (nextDayTS c) x hx
        obtain ⟨ht1, ht2⟩ := nextDayTS_time c
        exact ⟨h1.trans ht1, h2.trans ht2, (lt_nextDayTS c).le.trans h3, h4⟩
    · simp at hx

theorem dailyOcc_props {s e x : TS} (hx : x ∈ dailyOcc s e) :
    x.h = s.h ∧ x.mi = s.mi ∧ s ≤ x ∧ x ≤ e :=
  dailyOccGo_mem _ s x hx

/-! ### Lookup facts for the params dictionary model -/

theorem lookup_map_replace (k v k' : String) (hne : k' ≠ k) :
    ∀ d : List (String × String),
      (d.map fun kv => if kv.1 = k then (k, v) else kv).lookup k' = d.lookup k'
  | [] => rfl
  | (k1, v1) :: rest => by
    by_cases hk1 : k1 = k
    · subst hk1
      simp only [List.map_cons, if_pos rfl, if_true, eq_self_iff_true,
        List.lookup_cons, beq_eq_false_iff_ne.mpr hne]
      exact lookup_map_replace k1 v k' hne rest
    · simp only [List.map_cons, if_neg hk1, List.lookup_cons]
      cases hbeq : k' == k1
      · exact lookup_map_replace k v k' hne rest
      · rfl

theorem lookup_append_single_self (k v : String) :
    ∀ d : List (String × String), d.lookup k = none →
      (d ++ [(k, v)]).lookup k = some v
  | [], _ => by simp [List.lookup_cons]
  | (k1, v1) :: rest, hnone => by
    simp only [List.lookup_cons] at hnone
    simp only [List.cons_append, List.lookup_cons]
    cases hbeq : k == k1
    · rw [hbeq] at hnone
      exact lookup_append_single_self k v rest hnone
    · rw [hbeq] at hnone; simp at hnone

theorem lookup_append_single_other (k v k' : String) (hne : k' ≠ k) :
    ∀ d : List (String × String),
      (d ++ [(k, v)]).lookup k' = d.lookup k'
  | [] => by
    simp [List.lookup_cons, beq_eq_false_iff_ne.mpr hne]
  | (k1, v1) :: rest => by
    simp only [List.cons_append, List.lookup_cons]
    cases hbeq : k' == k1
    · exact lookup_append_single_other k v k' hne rest
    · rfl

theorem lookup_dictSet_self (d : List (String × String)) (k v : String) :
    (dictSet d k v).lookup k = some v := by
  unfold dictSet
  split
  · rename_i hsome
    induction d with
    | nil => simp at hsome
    | cons kv rest ih =>
      obtain ⟨k1, v1⟩ := kv
      by_cases hk1 : k1 = k
      · subst hk1
        simp [List.lookup_cons]
      · simp only [List.lookup_cons] at hsome
        have hbeq : (k == k1) = false := beq_eq_false_iff_ne.mpr (Ne.symm hk1)
        rw [hbeq] at hsome
        simp only [List.map_cons, if_neg hk1, List.lookup_cons, hbeq]
        exact ih hsome
  · rename_i hnone
    have hlook : d.lookup k = none := by
      cases hval : d.lookup k with
      | none => rfl
      | some w => rw [hval] at hnone; simp at hnone
    exact lookup_append_single_self k v d hlook

theorem lookup_dictSet_other (d : List (String × String)) (k v k' : String)
    (hne : k' ≠ k) : (dictSet d k v).lookup k' = d.lookup k' := by
  unfold dictSet
  split
  · exact lookup_map_replace k v k' hne d
  · exact lookup_append_single_other k v k' hne d

/-! ### Claim theorems -/

/-- Claim C1 (code_bug evidence): the realistic error text contains the
spec's exact marker phrase `"amount of requested data exceeds allowed
limit"` and its second-to-last whitespace token is `"200"`, yet
`base_request` re-raises the `HTTPError` (a protocol error) instead of
raising `PaginationError`: the marker literal in the source contains a
backslash line continuation, so the code compares against a variant with a
23-space run (`codePaginationMarker`), which the message does not contain.
Moreover the extracted token is never parsed as an integer anywhere in the
branch, so no `ProtocolError` fallback for unparseable tokens exists. -/
theorem base_request_marker_mismatch :
    containsSubstr limitErrorText specPaginationMarker = true ∧
    pyTokenNeg2 (pySplitSpace limitErrorText) = some "200" ∧
    containsSubstr limitErrorText codePaginationMarker = false ∧
    base_request_classify 400 [limitErrorText] = RawOutcome.httpError 400 := by
  decide

/-- Claim C2 (code_bug evidence): the `paginated` decorator has no guard
stopping the bisection when the midpoint reaches an endpoint.  Against a
fetch that reports pagination-exceeded on every sub-range, the recursion
never returns for any recursion depth (fuel), on every input range —
whereas the claim requires a fatal `PaginationLimitError` to be raised and
`fetchRange` to terminate. -/
theorem paginated_unbounded_recursion :
    ∀ (fuel s e : Nat),
      paginatedFuel natPivot alwaysPaginationFetch fuel s e = none := by
  intro fuel
  induction fuel with
  | zero => intro s e; rfl
  | succ n ih =>
    intro s e
    simp only [paginatedFuel, alwaysPaginationFetch, ih]

/-- Claim C3 (counterexample): a fetch classified `NoData` on the range
`[0, 10]` makes the `paginated` wrapper surface `NoMatchingDataError` to
the caller instead of returning an empty result set. -/
theorem paginated_nodata_counterexample :
    paginatedFuel natPivot noDataFetch 1 0 10 =
      some (Except.error QErr.noMatchingData) ∧
    paginatedFuel natPivot noDataFetch 1 0 10 ≠
      some (Except.ok ([] : List Nat)) := by
  refine ⟨rfl, ?_⟩
  intro h
  rw [show paginatedFuel natPivot noDataFetch 1 0 10 =
    some (Except.error QErr.noMatchingData) from rfl] at h
  simp at h

/-- Claim C3 (amended): the adaptive paginator catches only
`PaginationError`; a sub-range whose classified outcome is `NoData`
(`NoMatchingDataError`) is propagated to the caller as that error, not
converted into an empty result set. -/
theorem paginated_nodata_propagates {τ α : Type} (pivotF : τ → τ → τ)
    (fetch : τ → τ → Except QErr (List α)) (fuel : Nat) (s e : τ)
    (h : fetch s e = Except.error QErr.noMatchingData) :
    paginatedFuel pivotF fetch (fuel + 1) s e =
      some (Except.error QErr.noMatchingData) := by
  simp only [paginatedFuel, h]

/-- Witness for `paginated_nodata_propagates` at a concrete fetch. -/
theorem paginated_nodata_propagates_witness :
    paginatedFuel natPivot noDataFetch (3 + 1) 0 100 =
      some (Except.error QErr.noMatchingData) :=
  paginated_nodata_propagates natPivot noDataFetch 3 0 100 rfl

/-- Claim C4 (counterexample): with `retry_count = 1` and an
always-failing operation, the wrapped call makes exactly one invocation
but performs one sleep, not zero: the loop body sleeps after every failed
attempt, including the last one. -/
theorem retry_counterexample_one_sleep :
    (retry_wrapper 1 alwaysFailOp).calls = 1 ∧
    (retry_wrapper 1 alwaysFailOp).sleeps ≠ 0 := by
  constructor
  · rfl
  · intro h
    exact absurd h (by decide)

/-- Claim C4 (amended): with `retry_count = 1` and an operation raising a
transient transport error on every attempt, `retry` fails after exactly 1
invocation and performs exactly one retry-delay sleep (the sleep precedes
the `continue`, so it also runs after the final failed attempt), then
re-raises the recorded error. -/
theorem retry_single_attempt_one_sleep {α : Type}
    (f : Nat → Except ConnErr α) (err : ConnErr)
    (h : ∀ n, f n = Except.error err) :
    retry_wrapper 1 f = ⟨Except.error (some err), 1, 1⟩ := by
  simp only [retry_wrapper, retryGo, h 0]

/-- Witness for `retry_single_attempt_one_sleep`. -/
theorem retry_single_attempt_one_sleep_witness :
    retry_wrapper 1 alwaysFailOp =
      ⟨Except.error (some ConnErr.connectionError), 1, 1⟩ :=
  retry_single_attempt_one_sleep alwaysFailOp ConnErr.connectionError
    (fun _ => rfl)

/-- Claim C5 (counterexample): for `start == end` the chunker does NOT
produce the single chunk `[start, start]` — it produces no chunk at all
(the deduplicated boundary list collapses to one point and `pairwise` of a
singleton is empty). -/
theorem year_blocks_degenerate_counterexample :
    year_blocks (mkTS 2020 6 15 8 30) (mkTS 2020 6 15 8 30) ≠
      [(mkTS 2020 6 15 8 30, mkTS 2020 6 15 8 30)] := by
  decide

/-- Claim C5 (amended): for the degenerate input `start == end`, chunking
produces zero chunks (`year_blocks start start = []`); the downstream
`pd.concat` of zero frames would then raise a `ValueError`. -/
theorem year_blocks_degenerate_empty (t : TS) : year_blocks t t = [] := by
  have hocc : yearlyOcc t t = if validDate t = true then [t] else [] := by
    unfold yearlyOcc
    have hr : t.y + 1 - t.y = 1 := by omega
    rw [hr, show List.range 1 = [0] from rfl]
    by_cases hv : validDate t = true
    · simp [List.filterMap_cons, anniv_zero, hv]
    · simp [List.filterMap_cons, anniv_zero, hv]
  have hbounds : sortedBounds (yearlyOcc t t) t = [t] := by
    unfold sortedBounds
    rw [hocc]
    by_cases hv : validDate t = true
    · rw [if_pos hv]
      have hd : ([t] ++ [t] : List TS).dedup = [t] := by
        simp [List.dedup_cons_of_mem]
      rw [hd]
      rfl
    · rw [if_neg hv]
      have hd : (([] : List TS) ++ [t]).dedup = [t] := by simp
      rw [hd]
      rfl
  unfold year_blocks
  rw [hbounds]
  rfl

/-- Claim C8 (counterexample): issuing a single request through
`base_request` leaves the caller's params dictionary changed: the empty
update `params.update(base_params)` inserts `securityToken`,
`periodStart` and `periodEnd` into the caller's object. -/
theorem base_request_mutates_params :
    base_request_params [("documentType", "A44")] "KEY" "202001010000"
        "202001020000" ≠ [("documentType", "A44")] := by
  decide

/-- Claim C8 (amended): after `base_request` runs, the caller's params
dictionary maps `securityToken`, `periodStart` and `periodEnd` to the
values injected by the request (overwriting any previous entries for
those keys), while every other key keeps exactly its previous value. -/
theorem base_request_params_effect (params : List (String × String))
    (apiKey startStr endStr : String) :
    (base_request_params params apiKey startStr endStr).lookup
        "securityToken" = some apiKey ∧
    (base_request_params params apiKey startStr endStr).lookup
        "periodStart" = some startStr ∧
    (base_request_params params apiKey startStr endStr).lookup
        "periodEnd" = some endStr ∧
    ∀ k, k ≠ "securityToken" → k ≠ "periodStart" → k ≠ "periodEnd" →
      (base_request_params params apiKey startStr endStr).lookup k =
        params.lookup k := by
  unfold base_request_params
  refine ⟨?_, ?_, ?_, ?_⟩
  · rw [lookup_dictSet_other _ _ _ _ (by decide),
      lookup_dictSet_other _ _ _ _ (by decide), lookup_dictSet_self]
  · rw [lookup_dictSet_other _ _ _ _ (by decide), lookup_dictSet_self]
  · rw [lookup_dictSet_self]
  · intro k h1 h2 h3
    rw [lookup_dictSet_other _ _ _ _ h3, lookup_dictSet_other _ _ _ _ h2,
      lookup_dictSet_other _ _ _ _ h1]

/-- Witness for `base_request_params_effect`: an unrelated key keeps its
value through a concrete request. -/
theorem base_request_params_effect_witness :
    (base_request_params [("documentType", "A44")] "KEY" "S" "E").lookup
        "documentType" = [("documentType", "A44")].lookup "documentType" :=
  (base_request_params_effect [("documentType", "A44")] "KEY" "S" "E").2.2.2
    "documentType" (by decide) (by decide) (by decide)

/-- Claim C9 (confirmed): `_datetime_to_str` serializes exactly as the
spec describes — the wire string `YYYYMMDDHH00` (zero-padded, minutes
forced to `00`) of the instant normalized to UTC, converting when the
value carries a non-UTC zone and treating naive values as UTC. -/
theorem datetime_to_str_utc_spec (dtm : ZonedTS) :
    datetime_to_str dtm = spec_serialize dtm := by
  obtain ⟨t, tz⟩ := dtm
  cases tz with
  | none => rfl
  | some o =>
    by_cases ho : o = 0
    · subst ho; rfl
    · simp [datetime_to_str, spec_serialize, ho]

/-- Claim C10 (confirmed): in the raw client and in the pandas client
alike, `query_withdrawn_unavailability_of_generation_units` returns
exactly the result of `query_unavailability_of_generation_units` invoked
with `docstatus = 'A13'`, for every transport, fetch pipeline, domain and
time range. -/
theorem withdrawn_unavailability_docstatus_a13 :
    (∀ (ρ : Type)
      (transport : List (String × String) → ZonedTS → ZonedTS → ρ)
      (doctype domain : String) (s e : ZonedTS),
      query_withdrawn_unavailability_raw transport doctype domain s e =
        query_unavailability_raw transport doctype domain s e
          (some "A13")) ∧
    (∀ (α : Type) (pivotF : TS → TS → TS)
      (fetch : Option String → TS → TS → Except QErr (List α))
      (fuel : Nat) (s e : TS),
      query_withdrawn_unavailability_pandas pivotF fetch fuel s e =
        query_unavailability_pandas pivotF fetch fuel (some "A13") s e) :=
  ⟨fun _ _ _ _ _ _ => rfl, fun _ _ _ _ _ _ => rfl⟩

/-- Field-level characterization of the YEARLY occurrence list: exactly
the valid start-anniversaries (same month/day/hour/minute, year at least
the start's) that do not exceed the requested end. -/
theorem mem_yearlyOcc_fields {s e x : TS} :
    x ∈ yearlyOcc s e ↔
      (s.y ≤ x.y ∧ x.mo = s.mo ∧ x.d = s.d ∧ x.h = s.h ∧ x.mi = s.mi ∧
        validDate x = true ∧ x ≤ e) := by
  constructor
  · intro hx
    obtain ⟨k, hk, hvd, hle, rfl⟩ := mem_yearlyOcc.mp hx
    exact ⟨by simp [anniv], rfl, rfl, rfl, rfl, hvd, hle⟩
  · rintro ⟨hy, hmo, hd, hh, hmi, hvd, hle⟩
    have hx : x = anniv s (x.y - s.y) :=
      TS.ext (by simp only [anniv]; omega) hmo hd hh hmi
    rw [mem_yearlyOcc]
    refine ⟨x.y - s.y, ?_, ?_, ?_, hx⟩
    · have := TS.y_le_of_le hle
      omega
    · rw [← hx]; exact hvd
    · rw [← hx]; exact hle

/-- Claim C7 (counterexample): for a start that is not calendar-aligned
(2020-03-15) the interior chunk boundaries produced by `year_blocks` are
the anniversaries of the start (2021-03-15, 2022-03-15), not the calendar
year starts (2021-01-01, 2022-01-01) demanded by the claim, so the chunk
list differs from the spec-worded chunker. -/
theorem year_blocks_not_calendar_aligned :
    year_blocks (mkTS 2020 3 15 0 0) (mkTS 2022 6 1 0 0) ≠
      chunkSpecYear (mkTS 2020 3 15 0 0) (mkTS 2022 6 1 0 0) := by
  decide

/-- Claim C7 (amended): the chunkers emit adjacent pairs of the sorted,
deduplicated boundary list obtained from the rrule occurrences anchored at
`start` with `end` appended.  For YEAR granularity the boundaries are
exactly the valid start-anniversaries within range (plus `end`); for DAY
granularity every boundary other than `end` keeps the start's time of day
(so boundaries coincide with calendar day/year starts only when `start`
itself is calendar-aligned). -/
theorem blocks_boundary_characterization (s e : TS) :
    year_blocks s e = pairwise (sortedBounds (yearlyOcc s e) e) ∧
    day_blocks s e = pairwise (sortedBounds (dailyOcc s e) e) ∧
    (∀ x, x ∈ sortedBounds (yearlyOcc s e) e ↔
      ((s.y ≤ x.y ∧ x.mo = s.mo ∧ x.d = s.d ∧ x.h = s.h ∧ x.mi = s.mi ∧
        validDate x = true ∧ x ≤ e) ∨ x = e)) ∧
    (∀ x ∈ sortedBounds (dailyOcc s e) e,
      (x.h = s.h ∧ x.mi = s.mi ∧ s ≤ x ∧ x ≤ e) ∨ x = e) := by
  refine ⟨rfl, rfl, ?_, ?_⟩
  · intro x
    rw [mem_sortedBounds, mem_yearlyOcc_fields]
  · intro x hx
    rcases mem_sortedBounds.mp hx with hocc | rfl
    · exact Or.inl (dailyOcc_props hocc)
    · exact Or.inr rfl

/-- Witness for `blocks_boundary_characterization`: the 2021 anniversary
of 2020-03-15 is a boundary of the 2020-03-15 .. 2022-06-01 range. -/
theorem blocks_boundary_characterization_witness :
    mkTS 2021 3 15 0 0 ∈
      sortedBounds (yearlyOcc (mkTS 2020 3 15 0 0) (mkTS 2022 6 1 0 0))
        (mkTS 2022 6 1 0 0) :=
  ((blocks_boundary_characterization (mkTS 2020 3 15 0 0)
      (mkTS 2022 6 1 0 0)).2.2.1 (mkTS 2021 3 15 0 0)).mpr
    (Or.inl (by decide))

/-- Claim C6 (counterexample): at `start = end` (which satisfies
`start <= end`) the chunk list is empty, so its union does not cover the
point `start` and there is no first chunk — the claimed properties fail
for the degenerate range. -/
theorem year_blocks_union_counterexample :
    ¬ ∃ p ∈ year_blocks (mkTS 2021 5 10 0 0) (mkTS 2021 5 10 0 0),
      p.1 ≤ mkTS 2021 5 10 0 0 ∧ mkTS 2021 5 10 0 0 ≤ p.2 := by
  decide

/-- Claim C6 (amended): for every valid `start < end`, `year_blocks`
produces a nonempty chunk list that is contiguous (each chunk's end equals
the next chunk's start), strictly ordered inside each chunk (hence
non-overlapping beyond shared boundary points), starts at `start`, ends at
`end`, and whose union of closed chunk intervals is exactly
`[start, end]`. -/
theorem year_blocks_chunk_properties (s e : TS) (hv : validDate s = true)
    (hlt : s < e) :
    year_blocks s e ≠ [] ∧
    (∃ c, (year_blocks s e).head? = some c ∧ c.1 = s) ∧
    (∃ c, (year_blocks s e).getLast? = some c ∧ c.2 = e) ∧
    (year_blocks s e).Chain' (fun p q => p.2 = q.1) ∧
    (∀ p ∈ year_blocks s e, p.1 < p.2) ∧
    (∀ t : TS, (s ≤ t ∧ t ≤ e) ↔
      ∃ p ∈ year_blocks s e, p.1 ≤ t ∧ t ≤ p.2) := by
  have hsort := sortedBounds_sorted (yearlyOcc s e) e
  have hnd := sortedBounds_nodup (yearlyOcc s e) e
  have hbound : ∀ x ∈ sortedBounds (yearlyOcc s e) e, s ≤ x ∧ x ≤ e := by
    intro x hx
    rcases mem_sortedBounds.mp hx with hocc | rfl
    · exact yearlyOcc_bounds hocc
    · exact ⟨hlt.le, le_refl x⟩
  have hs_mem : s ∈ sortedBounds (yearlyOcc s e) e :=
    mem_sortedBounds.mpr (Or.inl (yearlyOcc_self_mem hv hlt.le))
  have he_mem : e ∈ sortedBounds (yearlyOcc s e) e :=
    mem_sortedBounds.mpr (Or.inr rfl)
  obtain ⟨a, b, r, hL⟩ :
      ∃ a b r, sortedBounds (yearlyOcc s e) e = a :: b :: r := by
    rcases hshape : sortedBounds (yearlyOcc s e) e with _ | ⟨a, _ | ⟨b, r⟩⟩
    · rw [hshape] at hs_mem
      exact absurd hs_mem (List.not_mem_nil s)
    · rw [hshape] at hs_mem he_mem
      have h1 := List.mem_singleton.mp hs_mem
      have h2 := List.mem_singleton.mp he_mem
      exact absurd (h1.trans h2.symm) hlt.ne
    · exact ⟨a, b, r, rfl⟩
  rw [hL] at hsort hnd hbound hs_mem he_mem
  have ha : a = s :=
    le_antisymm (sorted_head_min hsort rfl s hs_mem)
      (hbound a (List.mem_cons_self a _)).1
  rw [ha] at hL hsort hnd hbound hs_mem he_mem
  have hlast0 : (s :: b :: r).getLast? =
      some ((s :: b :: r).getLast (by simp)) := List.getLast?_eq_getLast _ _
  have hm_mem : (s :: b :: r).getLast (by simp) ∈ s :: b :: r :=
    List.getLast_mem _
  have hme : (s :: b :: r).getLast (by simp) = e :=
    le_antisymm (hbound _ hm_mem).2 (sorted_getLast_max hsort hlast0 e he_mem)
  have hlast : (s :: b :: r).getLast? = some e := by rw [hlast0, hme]
  haveI : IsTrans TS (· ≤ ·) := ⟨fun _ _ _ => le_trans⟩
  haveI : IsTrans TS (· < ·) := ⟨fun _ _ _ => lt_trans⟩
  have hchain_le : (s :: b :: r).Chain' (· ≤ ·) :=
    List.chain'_iff_pairwise.mpr hsort
  have hchain_lt : (s :: b :: r).Chain' (· < ·) :=
    List.chain'_iff_pairwise.mpr (hsort.lt_of_le hnd)
  have hyb : year_blocks s e = pairwise (s :: b :: r) := by
    rw [year_blocks, hL]
  refine ⟨?_, ?_, ?_, ?_, ?_, ?_⟩
  · rw [hyb, pairwise_cons_cons]
    exact List.cons_ne_nil _ _
  · exact ⟨(s, b), by rw [hyb, pairwise_cons_cons]; rfl, rfl⟩
  · obtain ⟨p, hp, hsnd⟩ := pairwise_getLast_snd s b r
    refine ⟨p, by rw [hyb]; exact hp, ?_⟩
    have htail : (b :: r).getLast? = some e := by
      have hx := hlast
      rw [List.getLast?_cons_cons] at hx
      exact hx
    rw [htail] at hsnd
    exact Option.some_inj.mp hsnd
  · rw [hyb]
    exact pairwise_chain _
  · rw [hyb]
    exact pairwise_fst_lt _ hchain_lt
  · intro t
    constructor
    · rintro ⟨hst, hte⟩
      rw [hyb]
      refine pairwise_cover (b :: r) s t hchain_le hst ?_
        (List.cons_ne_nil _ _)
      intro m' hm'
      rw [hlast] at hm'
      rw [← Option.some_inj.mp hm']
      exact hte
    · rintro ⟨p, hp, h1, h2⟩
      rw [hyb] at hp
      have hmm := mem_of_mem_pairwise hp
      exact ⟨(hbound p.1 hmm.1).1.trans h1, h2.trans (hbound p.2 hmm.2).2⟩

/-- Witness for `year_blocks_chunk_properties` on 2020-01-01 .. 2022-06-01. -/
theorem year_blocks_chunk_properties_witness :
    (validDate (mkTS 2020 1 1 0 0) = true ∧
      mkTS 2020 1 1 0 0 < mkTS 2022 6 1 0 0) ∧
    (∀ t : TS, (mkTS 2020 1 1 0 0 ≤ t ∧ t ≤ mkTS 2022 6 1 0 0) ↔
      ∃ p ∈ year_blocks (mkTS 2020 1 1 0 0) (mkTS 2022 6 1 0 0),
        p.1 ≤ t ∧ t ≤ p.2) :=
  ⟨⟨by decide, by decide⟩,
    (year_blocks_chunk_properties (mkTS 2020 1 1 0 0) (mkTS 2022 6 1 0 0)
      (by decide) (by decide)).2.2.2.2.2⟩
